import Mathlib

/-!
# cljs2go bootstrap entry point (`main.go`)

A shallow embedding of `main.go`: the callable `_main`, the package
initialiser `init`, and the host facilities the callable touches
(`Println`, `exec.Command`, `Cmd.CombinedOutput`, `log.Fatal`).

Effects are recorded in a trace, in program order.  The result of the one
external interaction whose answer the program reads, `CombinedOutput`, is
supplied by the host as a `FetchResult`.
-/

namespace Cljs2go

/-! ## Go data -/

/-- A Go `string`: an immutable sequence of bytes. -/
abbrev GoString := List UInt8

/-- A Go `[]byte`. -/
abbrev Bytes := List UInt8

/-- The bytes of a Go string literal (source text is UTF-8). -/
def lit (s : String) : GoString := s.toUTF8.data.toList

/-- The slice expression `s[lo:hi]`. -/
def slice (s : Bytes) (lo hi : Nat) : Bytes := (s.take hi).drop lo

/-- The full slice expression `s[:]`, that is `s[0:len(s)]`. -/
def sliceAll (s : Bytes) : Bytes := slice s 0 s.length

/-- The conversion `string(b)`: the same bytes, as a string. -/
def string (b : Bytes) : GoString := b

/-- Values of type `interface{}` that the callable can be handed. -/
inductive GoValue where
  | nil
  | bool (b : Bool)
  | int (i : Int)
  | str (s : GoString)
  deriving DecidableEq

/-- A non-nil `error` returned by `CombinedOutput`: either the command
started and exited with a non-zero status, or it could not be started. -/
inductive GoError where
  | exit (status : Nat) (description : GoString)
  | launch (description : GoString)
  deriving DecidableEq

/-- The text `err.Error()`. -/
def GoError.Error : GoError → GoString
  | .exit _ d => d
  | .launch d => d

/-- The pair `(out, err)` returned by `CombinedOutput`; `err = none` is the
nil error. -/
structure FetchResult where
  out : Bytes
  err : Option GoError
  deriving DecidableEq

/-- An `exec.Cmd`: its argument vector, the command name being `Args[0]`. -/
structure Cmd where
  Args : List GoString
  deriving DecidableEq

/-! ## Effects and runs -/

/-- One observable effect of a run. -/
inductive Effect where
  | println (args : List GoValue)
  | combinedOutput (c : Cmd)
  | fatal (msg : GoString)
  deriving DecidableEq

/-- How a run ends: it returns a value to its caller, or the process exits. -/
inductive Outcome (α : Type) where
  | returned (v : α)
  | exited (status : Nat)
  deriving DecidableEq

/-- A Go computation: given what the host answers to `CombinedOutput`, the
effects it performs, in order, and how it ends. -/
def Go (α : Type) : Type := FetchResult → List Effect × Outcome α

/-- A computation that returns at once. -/
def Go.pure {α : Type} (a : α) : Go α := fun _ => ([], Outcome.returned a)

/-- Sequencing: nothing runs after the process has exited. -/
def Go.bind {α β : Type} (m : Go α) (k : α → Go β) : Go β := fun r =>
  match m r with
  | (t, Outcome.returned a) =>
    match k a r with
    | (t2, o) => (t ++ t2, o)
  | (t, Outcome.exited c) => (t, Outcome.exited c)

instance : Monad Go where
  pure := Go.pure
  bind := Go.bind

/-- The call `Println.Invoke_ArityVariadic(args...)`: prints one line. -/
def Println_Invoke_ArityVariadic (args : List GoValue) : Go GoValue := fun _ =>
  ([Effect.println args], Outcome.returned GoValue.nil)

/-- The call `exec.Command(name, arg...)`. -/
def exec_Command (name : GoString) (arg : List GoString) : Cmd :=
  { Args := name :: arg }

/-- The call `c.CombinedOutput()`: runs the command once and hands back the
host's answer. -/
def Cmd.CombinedOutput (c : Cmd) : Go (Bytes × Option GoError) := fun r =>
  ([Effect.combinedOutput c], Outcome.returned (r.out, r.err))

/-- The call `log.Fatal(msg)` with a single string operand: writes the
message, then `os.Exit(1)`. -/
def log_Fatal (msg : GoString) : Go Unit := fun _ =>
  ([Effect.fatal msg], Outcome.exited 1)

/-! ## The program -/

/-- The part of the core package's `AFn` that `main.go` sets. -/
structure AFn where
  ArityVariadic : List GoValue → Go GoValue

/-- The callable `_main` of `main.go`. -/
def _main : AFn :=
  { ArityVariadic := fun _args => do
      let _ ← Println_Invoke_ArityVariadic [GoValue.str (lit "ClojureScript to Go [go]")]
      let goGet := exec_Command (lit "go")
        [lit "get", lit "code.google.com/p/go.tools/cmd/goimports"]
      let (out, err) ← goGet.CombinedOutput
      if err ≠ none then
        log_Fatal (string (sliceAll out))
      return GoValue.nil }

/-- The package-level variables `main.go` writes. -/
structure Globals where
  STAR_main_cli_fn_STAR_ : AFn

/-- The initialiser of `main.go`. -/
def init (g : Globals) : Globals :=
  { g with STAR_main_cli_fn_STAR_ := _main }

/-! ## Observations on a trace -/

/-- The messages handed to `log.Fatal`, in order. -/
def diagnostics : List Effect → List GoString
  | [] => []
  | Effect.fatal m :: t => m :: diagnostics t
  | _ :: t => diagnostics t

/-- The commands run through `CombinedOutput`, in order. -/
def commands : List Effect → List Cmd
  | [] => []
  | Effect.combinedOutput c :: t => c :: commands t
  | _ :: t => commands t

/-- The operand lists of the `Println` calls, in order. -/
def prints : List Effect → List (List GoValue)
  | [] => []
  | Effect.println a :: t => a :: prints t
  | _ :: t => prints t

/-- The banner text. -/
def banner : GoString := lit "ClojureScript to Go [go]"

/-- The command built in `_main`. -/
def goGet : Cmd :=
  { Args := [lit "go", lit "get", lit "code.google.com/p/go.tools/cmd/goimports"] }

/-- The effects of one run of `_main.ArityVariadic`. -/
def trace (args : List GoValue) (r : FetchResult) : List Effect :=
  (_main.ArityVariadic args r).1

/-- How one run of `_main.ArityVariadic` ends. -/
def outcome (args : List GoValue) (r : FetchResult) : Outcome GoValue :=
  (_main.ArityVariadic args r).2

/-- A launch failure as the host reports it when `go` is not on the search
path: nothing captured, and the lookup error. -/
def launchNotFound : FetchResult :=
  { out := []
    err := some (GoError.launch (lit "exec: \"go\": executable file not found in $PATH")) }

/-! ## Basic facts -/

theorem sliceAll_eq (s : Bytes) : sliceAll s = s := by
  simp [sliceAll, slice]

theorem run_ok (args : List GoValue) (out : Bytes) :
    _main.ArityVariadic args ⟨out, none⟩ =
      ([Effect.println [GoValue.str banner], Effect.combinedOutput goGet],
        Outcome.returned GoValue.nil) := by
  rfl

theorem run_fail (args : List GoValue) (out : Bytes) (e : GoError) :
    _main.ArityVariadic args ⟨out, some e⟩ =
      ([Effect.println [GoValue.str banner], Effect.combinedOutput goGet,
        Effect.fatal (string out)], Outcome.exited 1) := by
  simp [_main, Bind.bind, Go.bind, Pure.pure, Go.pure, Println_Invoke_ArityVariadic,
    Cmd.CombinedOutput, log_Fatal, exec_Command, banner, goGet, sliceAll_eq]

theorem trace_ok (args : List GoValue) (out : Bytes) :
    trace args ⟨out, none⟩ =
      [Effect.println [GoValue.str banner], Effect.combinedOutput goGet] :=
  congrArg Prod.fst (run_ok args out)

theorem outcome_ok (args : List GoValue) (out : Bytes) :
    outcome args ⟨out, none⟩ = Outcome.returned GoValue.nil :=
  congrArg Prod.snd (run_ok args out)

theorem trace_fail (args : List GoValue) (out : Bytes) (e : GoError) :
    trace args ⟨out, some e⟩ =
      [Effect.println [GoValue.str banner], Effect.combinedOutput goGet,
        Effect.fatal (string out)] :=
  congrArg Prod.fst (run_fail args out e)

theorem outcome_fail (args : List GoValue) (out : Bytes) (e : GoError) :
    outcome args ⟨out, some e⟩ = Outcome.exited 1 :=
  congrArg Prod.snd (run_fail args out e)

theorem banner_ne_nil : banner ≠ [] := by decide

/-! ## The claims -/

/-- C1: when the fetch command started and ended with an exit error, the run
ends in process exit (it does not return), and the one message handed to
`log.Fatal` is `string(out)`, whose bytes are exactly those of `out`; with
empty `out` the message is the empty string. -/
theorem C1_exit_error_diagnostic (args : List GoValue) (out : Bytes)
    (status : Nat) (d : GoString) :
    outcome args ⟨out, some (GoError.exit status d)⟩ = Outcome.exited 1 ∧
    (∀ v, outcome args ⟨out, some (GoError.exit status d)⟩ ≠ Outcome.returned v) ∧
    diagnostics (trace args ⟨out, some (GoError.exit status d)⟩) = [string out] ∧
    string out = out ∧
    diagnostics (trace args ⟨[], some (GoError.exit status d)⟩) = [[]] := by
  rw [outcome_fail, trace_fail, trace_fail]
  exact ⟨rfl, fun v h => Outcome.noConfusion h, rfl, rfl, rfl⟩

/-- C3: when the error is nil, whatever was captured, the run returns `nil`,
hands nothing to `log.Fatal`, and its effects are the banner print followed
by the one fetch invocation, neither of which depends on the captured
output. -/
theorem C3_success_returns_nil (args : List GoValue) (out : Bytes) :
    outcome args ⟨out, none⟩ = Outcome.returned GoValue.nil ∧
    diagnostics (trace args ⟨out, none⟩) = [] ∧
    trace args ⟨out, none⟩ =
      [Effect.println [GoValue.str banner], Effect.combinedOutput goGet] ∧
    trace args ⟨out, none⟩ = trace args ⟨[], none⟩ := by
  rw [outcome_ok, trace_ok, trace_ok]
  exact ⟨rfl, rfl, rfl, rfl⟩

/-- C4: for every argument list and fetch result, the trace starts with the
print of the banner `"ClojureScript to Go [go]"`, that print occurs exactly
once and is the only print, and the fetch invocation and any fatal
diagnostic come after it. -/
theorem C4_banner_first_once (args : List GoValue) (r : FetchResult) :
    banner = lit "ClojureScript to Go [go]" ∧
    ∃ rest, trace args r = Effect.println [GoValue.str banner] :: rest ∧
      (trace args r).count (Effect.println [GoValue.str banner]) = 1 ∧
      prints (trace args r) = [[GoValue.str banner]] ∧
      prints rest = [] ∧
      commands rest = [goGet] ∧
      diagnostics rest = diagnostics (trace args r) := by
  refine ⟨rfl, ?_⟩
  obtain ⟨out, _ | e⟩ := r
  · rw [trace_ok]
    exact ⟨_, rfl, by simp [List.count_cons], rfl, rfl, rfl, rfl⟩
  · rw [trace_fail]
    exact ⟨_, rfl, by simp [List.count_cons], rfl, rfl, rfl, rfl⟩

/-- C5: the argument list has no influence: two runs under the same fetch
result have the same trace and the same outcome, and the command they run
is the fixed `go get code.google.com/p/go.tools/cmd/goimports`. -/
theorem C5_argument_insensitive (a b : List GoValue) (r : FetchResult) :
    trace a r = trace b r ∧ outcome a r = outcome b r ∧
    commands (trace a r) = [goGet] ∧ commands (trace b r) = [goGet] ∧
    goGet.Args.getLast? = some (lit "code.google.com/p/go.tools/cmd/goimports") := by
  obtain ⟨out, _ | e⟩ := r
  · rw [trace_ok, trace_ok, outcome_ok, outcome_ok]
    exact ⟨rfl, rfl, rfl, rfl, rfl⟩
  · rw [trace_fail, trace_fail, outcome_fail, outcome_fail]
    exact ⟨rfl, rfl, rfl, rfl, rfl⟩

/-- C2, as stated, fails: under the launch failure `launchNotFound` (nothing
captured, non-empty description) the message handed to `log.Fatal` is the
empty string, so it is not a non-empty message equal to the error's
description. -/
theorem C2_launch_description_refuted :
    launchNotFound.out = [] ∧
    (∃ d, launchNotFound.err = some (GoError.launch d) ∧ d ≠ []) ∧
    diagnostics (trace [] launchNotFound) = [[]] ∧
    ¬ ∃ m e, diagnostics (trace [] launchNotFound) = [m] ∧
        launchNotFound.err = some e ∧ m ≠ [] ∧ m ≠ banner ∧ m = e.Error := by
  have hd : diagnostics (trace [] launchNotFound) = [[]] := by
    unfold launchNotFound
    rw [trace_fail]
    rfl
  refine ⟨rfl, ⟨_, rfl, by decide⟩, hd, ?_⟩
  rintro ⟨m, e, hm, -, hne, -, -⟩
  rw [hd] at hm
  exact hne (List.cons.inj hm).1.symm

/-- C2, amended: under a launch failure (nothing captured, a launch error with
a non-empty description) the run ends in process exit, and the one message
handed to `log.Fatal` is `string(out)`, the empty string; it is not the
banner text and it is not the error's description. -/
theorem C2_launch_failure_diagnostic (args : List GoValue) (d : GoString)
    (hd : d ≠ []) :
    outcome args ⟨[], some (GoError.launch d)⟩ = Outcome.exited 1 ∧
    ∃ m, diagnostics (trace args ⟨[], some (GoError.launch d)⟩) = [m] ∧
      m = string [] ∧ m = [] ∧ m ≠ banner ∧ m ≠ (GoError.launch d).Error := by
  rw [outcome_fail, trace_fail]
  exact ⟨rfl, [], rfl, rfl, rfl, fun h => banner_ne_nil h.symm, fun h => hd h.symm⟩

theorem C2_launch_failure_diagnostic_witness :
    lit "exec: \"go\": executable file not found in $PATH" ≠ [] ∧
    outcome [GoValue.int 7]
      ⟨[], some (GoError.launch (lit "exec: \"go\": executable file not found in $PATH"))⟩
      = Outcome.exited 1 ∧
    ∃ m, diagnostics (trace [GoValue.int 7]
        ⟨[], some (GoError.launch (lit "exec: \"go\": executable file not found in $PATH"))⟩)
        = [m] ∧
      m = string [] ∧ m = [] ∧ m ≠ banner ∧
      m ≠ (GoError.launch (lit "exec: \"go\": executable file not found in $PATH")).Error :=
  ⟨by decide, C2_launch_failure_diagnostic [GoValue.int 7] _ (by decide)⟩

/-- C6: every run invokes the fetch command exactly once, and a message handed
to `log.Fatal` is the last effect of the run: nothing stands after it, and
when the error is non-nil the trace ends with it. -/
theorem C6_single_fetch_fatal_last (args : List GoValue) (r : FetchResult) :
    (commands (trace args r)).length = 1 ∧
    commands (trace args r) = [goGet] ∧
    (r.err = none ∨ (trace args r).getLast? = some (Effect.fatal (string r.out))) ∧
    diagnostics (trace args r).dropLast = [] ∧
    ∀ pre post m, trace args r = pre ++ Effect.fatal m :: post → post = [] := by
  obtain ⟨out, _ | e⟩ := r
  · rw [trace_ok]
    refine ⟨rfl, rfl, Or.inl rfl, rfl, ?_⟩
    intro pre post m h
    rcases pre with _ | ⟨a, _ | ⟨b, _ | ⟨c, pre⟩⟩⟩ <;> simp at h
  · rw [trace_fail]
    refine ⟨rfl, rfl, Or.inr rfl, rfl, ?_⟩
    intro pre post m h
    rcases pre with _ | ⟨a, _ | ⟨b, _ | ⟨c, _ | ⟨c2, pre⟩⟩⟩⟩ <;> simp at h
    exact h.2.2.2

/-- C7: the command every run executes is `go` with the arguments `get` and
the one fixed dependency identifier
`code.google.com/p/go.tools/cmd/goimports`: the same three-element argument
vector on every run. -/
theorem C7_fixed_fetch_command (args : List GoValue) (r : FetchResult) :
    commands (trace args r) =
      [{ Args := [lit "go", lit "get", lit "code.google.com/p/go.tools/cmd/goimports"] }] ∧
    (commands (trace args r)).map (fun c => c.Args.length) = [3] ∧
    (commands (trace args r)).map (fun c => c.Args.head?) = [some (lit "go")] := by
  obtain ⟨out, _ | e⟩ := r
  · rw [trace_ok]
    exact ⟨rfl, rfl, rfl⟩
  · rw [trace_fail]
    exact ⟨rfl, rfl, rfl⟩

/-- C8: after `init`, the variable `STAR_main_cli_fn_STAR_` holds `_main`,
whatever it held before, so calling its variadic arity is calling
`_main.ArityVariadic`. -/
theorem C8_init_registers_main (g g2 : Globals) :
    (init g).STAR_main_cli_fn_STAR_ = _main ∧
    init g = init g2 ∧
    ∀ args r, (init g).STAR_main_cli_fn_STAR_.ArityVariadic args r =
      _main.ArityVariadic args r :=
  ⟨rfl, rfl, fun _ _ => rfl⟩

/-- C9: with the captured output fixed, two non-nil errors give the same trace
and the same outcome, and the message handed to `log.Fatal` is
`string(out)` under both. -/
theorem C9_diagnostic_ignores_error (args : List GoValue) (out : Bytes)
    (e1 e2 : GoError) :
    trace args ⟨out, some e1⟩ = trace args ⟨out, some e2⟩ ∧
    outcome args ⟨out, some e1⟩ = outcome args ⟨out, some e2⟩ ∧
    diagnostics (trace args ⟨out, some e1⟩) = [string out] ∧
    diagnostics (trace args ⟨out, some e2⟩) = [string out] := by
  rw [trace_fail, trace_fail, outcome_fail, outcome_fail]
  exact ⟨rfl, rfl, rfl, rfl⟩

end Cljs2go
